import Mathlib

/-!
# Verification of the book-recommendation similarity-ranking engine

Shallow embedding of the `recommend_books` endpoint of `src/main.py`
(and the pydantic request validation it sits behind), together with a
model of the TF-IDF query transform.  The pickled vectorizer and corpus
matrix are external artifacts downloaded at startup, so the vector-space
model (vocabulary, IDF weights, corpus matrix, book metadata) is a
parameter (`Vsm`); the query transform itself is modelled from the spec
(see `tokenize` / `queryVec`).

Numeric conventions: stored weights are rationals (`ℚ`); cosine
similarity, which divides by Euclidean norms, produces a real (`ℝ`).
`numpy.argsort` is modelled as a stable ascending argsort (ties ordered
by index).  numpy's default sort runs a stable insertion sort on arrays
of fewer than 16 elements, so the model is exact in that regime; on
larger arrays the default introsort is unstable and the tie order is
unspecified, so every theorem below whose conclusion depends on the
order of tied scores carries a `matrix.length < 16` hypothesis.
Conclusions that are independent of tie order (lengths, sortedness of
scores, rank numbering, score bounds, rounding) hold for any ascending
argsort and carry no such hypothesis.
-/

namespace BookRec

/-! ## Tokenization and the query transform

Modelled from the spec: the fitted `TfidfVectorizer` (`tfidf` in
`src/main.py`, line 47) is a pickled artifact that is not part of the
repository.  The spec's transform contract (§4.1): lower-case, split on
non-alphanumeric boundaries, drop empty tokens; weight of a vocabulary
term = term frequency in the input × the term's stored IDF; unknown terms
are dropped; normalization may be left to the comparison step (cosine
similarity normalizes both vectors, so the raw TF·IDF vector is used
here). -/

/-- A token character: alphanumeric (spec §4.1: split on non-alphanumeric
boundaries). -/
def isTokChar (c : Char) : Bool := c.isAlphanum

/-- Split a character list into maximal runs of token characters.
`acc` holds the current (reversed) run. -/
def wordsAux : List Char → List Char → List (List Char)
  | [], acc => if acc = [] then [] else [acc.reverse]
  | c :: cs, acc =>
    if isTokChar c then wordsAux cs (c :: acc)
    else if acc = [] then wordsAux cs [] else acc.reverse :: wordsAux cs []

/-- Modelled from the spec: tokenization of the missing vectorizer —
lower-case the text, split on non-alphanumeric boundaries, drop empty
tokens. -/
def tokenize (s : String) : List String :=
  (wordsAux (s.data.map Char.toLower) []).map (fun w => String.mk w)

/-- Python's `" ".join`, as used for `user_text` in `src/main.py` line 83. -/
def joinSpace : List String → String
  | [] => ""
  | [s] => s
  | s :: r :: rest => s ++ " " ++ joinSpace (r :: rest)

/-! ## Data model -/

/-- One row of `df_books_meta` as read by `recommend_books`
(`src/main.py` lines 97–104): optional metadata columns; `none` models a
missing/NaN entry (`pd.notna` false). -/
structure Book where
  book_title : Option String
  book_price : Option ℚ
  review_score : Option ℚ
  review_summary : Option String
deriving Inhabited, DecidableEq

/-- The loaded vector-space model: vocabulary with parallel IDF weights,
the corpus TF-IDF matrix (`tfidf_matrix_books`, one row per corpus item)
and the parallel metadata table (`df_books_meta`). -/
structure Vsm where
  vocab : List String
  idf : List ℚ
  matrix : List (List ℚ)
  books : List Book

/-- The request body (`RecommendationRequest`, `src/main.py` lines 53–56):
pydantic declares `limit : int` with `gt=0, le=20`; the bounds are checked
by `validRange` below, before `recommend_books` runs. -/
structure Request where
  domain : String
  modules : List String
  limit : ℤ

/-- The spec's `InvalidQuery` error kind (§7): out-of-range `limit`
(pydantic validation failure) or empty `modules` list (the explicit
HTTP 400 at `src/main.py` lines 79–80). -/
inductive InvalidQuery where
  | limitOutOfRange
  | emptyModules
deriving DecidableEq

/-- One ranked result (`Recommendation`, `src/main.py` lines 58–64). -/
structure Recommendation where
  rank : ℕ
  title : String
  price : Option ℚ
  review_score : Option ℚ
  review_summary : Option String
  score : ℝ

/-- The response envelope (`RecommendationResponse`, lines 66–69). -/
structure RecommendationResponse where
  status : String
  count : ℕ
  recommendations : List Recommendation

/-- The JSON object keys serialized for one `Recommendation` by the
pydantic model at `src/main.py` lines 58–64, in declaration order. -/
def recommendationKeys : List String :=
  ["rank", "title", "price", "review_score", "review_summary", "score"]

/-! ## Similarity pipeline -/

/-- Dot product of two weight vectors. -/
def dot (q r : List ℚ) : ℚ := (List.zipWith (· * ·) q r).sum

/-- Modelled from the spec: the missing vectorizer's transform — the raw
TF·IDF query vector over the vocabulary (term count in the tokenized text
times the stored IDF weight); unknown terms contribute nothing because
only vocabulary terms index the vector. -/
def queryVec (vsm : Vsm) (text : String) : List ℚ :=
  (vsm.vocab.zip vsm.idf).map (fun p => ((tokenize text).count p.1 : ℚ) * p.2)

/-- Cosine similarity (`sklearn.metrics.pairwise.cosine_similarity` of one
query row against one corpus row): `dot q r / (‖q‖ * ‖r‖)`, and `0` when
either vector is zero (zero squared norm), never a division by zero. -/
noncomputable def cosSim (q r : List ℚ) : ℝ :=
  if dot q q = 0 ∨ dot r r = 0 then 0
  else (dot q r : ℝ) / (Real.sqrt (dot q q) * Real.sqrt (dot r r))

/-- `user_text = " ".join([payload.domain] + payload.modules)`
(`src/main.py` line 83). -/
def userText (r : Request) : String := joinSpace (r.domain :: r.modules)

/-- `similarity_scores` (`src/main.py` line 89): cosine similarity of the
query vector against every row of the corpus matrix. -/
noncomputable def simScores (vsm : Vsm) (r : Request) : List ℝ :=
  vsm.matrix.map (fun row => cosSim (queryVec vsm (userText r)) row)

/-- The comparison used to model `numpy.argsort` on the score array:
ascending by score, ties ordered by index. -/
def keyLe (s : List ℝ) (i j : ℕ) : Prop :=
  s.getD i 0 < s.getD j 0 ∨ (s.getD i 0 = s.getD j 0 ∧ i ≤ j)

noncomputable instance keyLe.instDecidableRel (s : List ℝ) :
    DecidableRel (keyLe s) := fun _ _ =>
  inferInstanceAs (Decidable (_ ∨ _ ∧ _))

/-- `similarity_scores.argsort()` (`src/main.py` line 92): the indices
`0, …, n-1` sorted ascending by score.  Ties are ordered by index
(stable).  This is exact for numpy's default sort on arrays of fewer
than 16 elements, where it runs a stable insertion sort; on larger
arrays numpy's introsort is unstable and leaves the order of tied
indices unspecified, so any theorem whose conclusion depends on the
relative order of tied scores must assume fewer than 16 corpus rows.
The ascending value order, the membership and the length of the result
are those of every correct argsort, whatever the tie order. -/
noncomputable def argsort (s : List ℝ) : List ℕ :=
  List.insertionSort (keyLe s) (List.range s.length)

/-- Python's `l[start:]` slice for an integer `start` (negative `start`
counts from the end, clamped). -/
def pySliceFrom (start : ℤ) (l : List α) : List α :=
  if start < 0 then l.drop (l.length - (-start).toNat) else l.drop start.toNat

/-- `top_indices = similarity_scores.argsort()[-payload.limit:][::-1]`
(`src/main.py` line 92). -/
noncomputable def topIndices (vsm : Vsm) (r : Request) : List ℕ :=
  (pySliceFrom (-r.limit) (argsort (simScores vsm r))).reverse

/-- `round(x, 4)` (`src/main.py` line 105): round to 4 decimal places. -/
noncomputable def round4 (x : ℝ) : ℝ := (round (x * 10000) : ℤ) / 10000

/-- The loop body of `src/main.py` lines 96–107: the `i`-th entry built
from the book at corpus index `idx`. -/
noncomputable def buildResponse (vsm : Vsm) (r : Request) :
    RecommendationResponse :=
  let scores := simScores vsm r
  let recs := (topIndices vsm r).enum.map (fun p =>
    let b := vsm.books.getD p.2 default
    { rank := p.1 + 1
      title := b.book_title.getD "N/A"
      price := b.book_price
      review_score := b.review_score
      review_summary := b.review_summary
      score := round4 (scores.getD p.2 0) : Recommendation })
  { status := "success", count := recs.length, recommendations := recs }

/-- `recommend_books` (`src/main.py` lines 77–113): reject an empty
modules list with HTTP 400 (the spec's `InvalidQuery`), otherwise build
the ranked response. -/
noncomputable def recommendBooks (vsm : Vsm) (r : Request) :
    Except InvalidQuery RecommendationResponse :=
  if r.modules = [] then .error .emptyModules
  else .ok (buildResponse vsm r)

/-- The `limit` bounds declared on `RecommendationRequest`
(`src/main.py` line 56): `gt=0, le=20`. -/
def validRange (r : Request) : Prop := 0 < r.limit ∧ r.limit ≤ 20

instance (r : Request) : Decidable (validRange r) :=
  inferInstanceAs (Decidable (_ ∧ _))

/-- The request path: pydantic validates `limit` before `recommend_books`
runs; a violation is a structured validation error, not a panic. -/
noncomputable def handle (vsm : Vsm) (r : Request) :
    Except InvalidQuery RecommendationResponse :=
  if validRange r then recommendBooks vsm r else .error .limitOutOfRange

/-- The record built for output position `k` from corpus index `idx`
(the loop body at `src/main.py` lines 96–107 with `rank = k + 1`). -/
noncomputable def mkResult (vsm : Vsm) (r : Request) (k idx : ℕ) :
    Recommendation :=
  { rank := k + 1
    title := ((vsm.books.getD idx default).book_title).getD "N/A"
    price := (vsm.books.getD idx default).book_price
    review_score := (vsm.books.getD idx default).review_score
    review_summary := (vsm.books.getD idx default).review_summary
    score := round4 ((simScores vsm r).getD idx 0) }

/-! ## Concrete instances used to exercise the theorems -/

/-- A sample corpus item with full metadata. -/
def bookA : Book := ⟨some "Book A", some 10, some (9 / 2), some "good"⟩

/-- A sample corpus item with missing metadata. -/
def bookB : Book := ⟨some "Book B", none, none, none⟩

/-- A two-item VSM with an empty vocabulary (every query term is unknown,
so both corpus rows tie at similarity 0). -/
def vsm0 : Vsm := ⟨[], [], [[], []], [bookA, bookB]⟩

/-- A sample valid request. -/
def req0 : Request := ⟨"computer science", ["machine learning", "python"], 2⟩

/-! ## Order facts about the argsort comparison -/

instance keyLe.instIsTotal (s : List ℝ) : IsTotal ℕ (keyLe s) := by
  constructor
  intro i j
  rcases lt_trichotomy (s.getD i 0) (s.getD j 0) with h | h | h
  · exact Or.inl (Or.inl h)
  · rcases Nat.le_total i j with hij | hij
    · exact Or.inl (Or.inr ⟨h, hij⟩)
    · exact Or.inr (Or.inr ⟨h.symm, hij⟩)
  · exact Or.inr (Or.inl h)

instance keyLe.instIsTrans (s : List ℝ) : IsTrans ℕ (keyLe s) := by
  constructor
  rintro i j k (h₁ | ⟨h₁, hij⟩) (h₂ | ⟨h₂, hjk⟩)
  · exact Or.inl (h₁.trans h₂)
  · exact Or.inl (h₂ ▸ h₁)
  · exact Or.inl (h₁ ▸ h₂)
  · exact Or.inr ⟨h₁.trans h₂, hij.trans hjk⟩

theorem keyLe_le {s : List ℝ} {i j : ℕ} (h : keyLe s i j) :
    s.getD i 0 ≤ s.getD j 0 := by
  rcases h with h | ⟨h, _⟩
  · exact h.le
  · exact h.le

theorem argsort_perm (s : List ℝ) :
    List.Perm (argsort s) (List.range s.length) :=
  List.perm_insertionSort _ _

theorem argsort_length (s : List ℝ) : (argsort s).length = s.length := by
  simpa using (argsort_perm s).length_eq

theorem argsort_nodup (s : List ℝ) : (argsort s).Nodup :=
  ((argsort_perm s).nodup_iff).mpr (List.nodup_range _)

theorem argsort_sorted (s : List ℝ) : List.Sorted (keyLe s) (argsort s) :=
  List.sorted_insertionSort _ _

/-! ## Shape of the selected indices -/

theorem topIndices_eq (vsm : Vsm) (r : Request) (h : 0 < r.limit) :
    topIndices vsm r =
      ((argsort (simScores vsm r)).drop
        ((argsort (simScores vsm r)).length - r.limit.toNat)).reverse := by
  have hneg : -r.limit < 0 := by omega
  have htn : (-(-r.limit)).toNat = r.limit.toNat := by omega
  simp [topIndices, pySliceFrom, hneg, htn]

theorem topIndices_length (vsm : Vsm) (r : Request) (h : 0 < r.limit) :
    (topIndices vsm r).length = min r.limit.toNat vsm.matrix.length := by
  rw [topIndices_eq vsm r h]
  have hlen : (argsort (simScores vsm r)).length = vsm.matrix.length := by
    rw [argsort_length]; simp [simScores]
  rw [List.length_reverse, List.length_drop, hlen]
  omega

theorem topIndices_nodup (vsm : Vsm) (r : Request) (h : 0 < r.limit) :
    (topIndices vsm r).Nodup := by
  rw [topIndices_eq vsm r h]
  exact List.nodup_reverse.mpr
    ((argsort_nodup _).sublist (List.drop_sublist _ _))

theorem topIndices_sorted (vsm : Vsm) (r : Request) (h : 0 < r.limit) :
    (topIndices vsm r).Pairwise
      (fun i j => keyLe (simScores vsm r) j i) := by
  rw [topIndices_eq vsm r h]
  rw [List.pairwise_reverse]
  exact (argsort_sorted (simScores vsm r)).sublist (List.drop_sublist _ _)

/-! ## The success path of `recommend_books` -/

theorem getD_of_lt {α : Type _} (l : List α) (i : ℕ) (d : α)
    (h : i < l.length) : l.getD i d = l.get ⟨i, h⟩ := by
  simp [List.getD_eq_getElem?_getD, List.getElem?_eq_getElem h]

theorem handle_ok (vsm : Vsm) (r : Request) (hm : r.modules ≠ [])
    (hv : validRange r) :
    handle vsm r = .ok (buildResponse vsm r) := by
  simp [handle, hv, recommendBooks, hm]

theorem recommendations_def (vsm : Vsm) (r : Request) :
    (buildResponse vsm r).recommendations =
      (topIndices vsm r).enum.map (fun p => mkResult vsm r p.1 p.2) := rfl

theorem recommendations_length (vsm : Vsm) (r : Request) :
    (buildResponse vsm r).recommendations.length =
      (topIndices vsm r).length := by
  rw [recommendations_def, List.length_map, List.enum_length]

theorem recommendations_map_score (vsm : Vsm) (r : Request) :
    (buildResponse vsm r).recommendations.map Recommendation.score =
      (topIndices vsm r).map
        (fun idx => round4 ((simScores vsm r).getD idx 0)) := by
  rw [recommendations_def, List.map_map]
  have h1 : Recommendation.score ∘ (fun p : ℕ × ℕ => mkResult vsm r p.1 p.2) =
      (fun idx => round4 ((simScores vsm r).getD idx 0)) ∘ Prod.snd := rfl
  rw [h1, ← List.map_map, List.enum_map_snd]

theorem recommendations_get (vsm : Vsm) (r : Request) (k : ℕ)
    (hk : k < (buildResponse vsm r).recommendations.length) :
    (buildResponse vsm r).recommendations.get ⟨k, hk⟩ =
      mkResult vsm r k ((topIndices vsm r).getD k 0) := by
  have hk1 : k < (topIndices vsm r).length := by
    rwa [recommendations_length] at hk
  have hk2 : k < (topIndices vsm r).enum.length := by
    rwa [List.enum_length]
  have hmain : (buildResponse vsm r).recommendations.get ⟨k, hk⟩ =
      mkResult vsm r ((topIndices vsm r).enum.get ⟨k, hk2⟩).1
        ((topIndices vsm r).enum.get ⟨k, hk2⟩).2 := by
    simp only [recommendations_def] at hk ⊢
    rw [List.get_eq_getElem, List.getElem_map]
    rfl
  rw [hmain]
  have henum : (topIndices vsm r).enum.get ⟨k, hk2⟩ =
      (k, (topIndices vsm r).get ⟨k, hk1⟩) := by
    rw [List.get_eq_getElem, List.getElem_enum]
    rfl
  rw [henum, getD_of_lt _ _ _ hk1]

/-! ## Numeric facts: dot products, Cauchy–Schwarz, cosine bounds -/

theorem dot_nil (r : List ℚ) : dot [] r = 0 := by simp [dot]

theorem dot_cons (a b : ℚ) (q r : List ℚ) :
    dot (a :: q) (b :: r) = a * b + dot q r := by simp [dot]

theorem dot_self_nonneg (q : List ℚ) : 0 ≤ dot q q := by
  induction q with
  | nil => simp [dot]
  | cons a q ih =>
    rw [dot_cons]
    have := mul_self_nonneg a
    linarith

theorem dot_nonneg {q r : List ℚ} (hq : ∀ x ∈ q, 0 ≤ x)
    (hr : ∀ x ∈ r, 0 ≤ x) : 0 ≤ dot q r := by
  induction q generalizing r with
  | nil => simp [dot]
  | cons a q ih =>
    cases r with
    | nil => simp [dot]
    | cons b r =>
      rw [dot_cons]
      have h1 : 0 ≤ a * b :=
        mul_nonneg (hq a (by simp)) (hr b (by simp))
      have h2 : 0 ≤ dot q r :=
        ih (fun x hx => hq x (by simp [hx])) (fun x hx => hr x (by simp [hx]))
      linarith

/-- Cauchy–Schwarz for the list dot product, squared form. -/
theorem dot_sq_le (q : List ℚ) : ∀ r : List ℚ,
    (dot q r) ^ 2 ≤ dot q q * dot r r := by
  induction q with
  | nil =>
    intro r
    simp [dot]
  | cons a q ih =>
    intro r
    cases r with
    | nil =>
      simp [dot]
    | cons b r =>
      have hQ := dot_self_nonneg q
      have hR := dot_self_nonneg r
      have hD := ih r
      rw [dot_cons, dot_cons, dot_cons]
      rcases eq_or_lt_of_le hR with hR0 | hRpos
      · have hD0 : dot q r = 0 := by nlinarith [sq_nonneg (dot q r)]
        rw [hD0, ← hR0]
        nlinarith [mul_self_nonneg a, mul_self_nonneg b, sq_nonneg (a * b)]
      · have h1 := sq_nonneg (a * dot r r - b * dot q r)
        have h2 : 0 ≤ b ^ 2 * (dot q q * dot r r - (dot q r) ^ 2) :=
          mul_nonneg (sq_nonneg b) (by linarith)
        have h3 : 0 ≤ dot r r * (dot q q * dot r r - (dot q r) ^ 2) :=
          mul_nonneg hRpos.le (by linarith)
        nlinarith [h1, h2, h3, hRpos]

theorem cosSim_nonneg {q r : List ℚ} (hq : ∀ x ∈ q, 0 ≤ x)
    (hr : ∀ x ∈ r, 0 ≤ x) : 0 ≤ cosSim q r := by
  unfold cosSim
  split
  · exact le_refl 0
  · apply div_nonneg
    · exact_mod_cast dot_nonneg hq hr
    · exact mul_nonneg (Real.sqrt_nonneg _) (Real.sqrt_nonneg _)

theorem cosSim_le_one (q r : List ℚ) : cosSim q r ≤ 1 := by
  unfold cosSim
  split
  · exact zero_le_one
  · next h =>
    push_neg at h
    have hQ : (0 : ℚ) < dot q q :=
      lt_of_le_of_ne (dot_self_nonneg q) (Ne.symm h.1)
    have hR : (0 : ℚ) < dot r r :=
      lt_of_le_of_ne (dot_self_nonneg r) (Ne.symm h.2)
    have hQ' : (0 : ℝ) < (dot q q : ℝ) := by exact_mod_cast hQ
    have hR' : (0 : ℝ) < (dot r r : ℝ) := by exact_mod_cast hR
    rw [div_le_one
      (mul_pos (Real.sqrt_pos.mpr hQ') (Real.sqrt_pos.mpr hR'))]
    have key : ((dot q r : ℝ)) ^ 2 ≤ (dot q q : ℝ) * (dot r r : ℝ) := by
      exact_mod_cast dot_sq_le q r
    calc (dot q r : ℝ) ≤ |(dot q r : ℝ)| := le_abs_self _
      _ = Real.sqrt ((dot q r : ℝ) ^ 2) := (Real.sqrt_sq_eq_abs _).symm
      _ ≤ Real.sqrt ((dot q q : ℝ) * (dot r r : ℝ)) := Real.sqrt_le_sqrt key
      _ = Real.sqrt (dot q q : ℝ) * Real.sqrt (dot r r : ℝ) :=
        Real.sqrt_mul hQ'.le _

/-! ## Rounding to 4 decimal places -/

theorem round4_mono {x y : ℝ} (h : x ≤ y) : round4 x ≤ round4 y := by
  unfold round4
  have h1 : round (x * 10000) ≤ round (y * 10000) := by
    rw [round_eq, round_eq]
    exact Int.floor_le_floor (by linarith)
  have h2 : ((round (x * 10000) : ℤ) : ℝ) ≤ ((round (y * 10000) : ℤ) : ℝ) := by
    exact_mod_cast h1
  exact div_le_div_of_nonneg_right h2 (by norm_num)

theorem round4_zero : round4 0 = 0 := by
  simp [round4]

theorem round4_one : round4 1 = 1 := by
  unfold round4
  have h : (1 : ℝ) * 10000 = ((10000 : ℤ) : ℝ) := by norm_num
  rw [h, round_intCast]
  norm_num

theorem round4_mem_unit {x : ℝ} (h0 : 0 ≤ x) (h1 : x ≤ 1) :
    0 ≤ round4 x ∧ round4 x ≤ 1 :=
  ⟨round4_zero ▸ round4_mono h0, round4_one ▸ round4_mono h1⟩

/-! ## Bounds on the similarity scores -/

theorem queryVec_nonneg (vsm : Vsm) (text : String)
    (hidf : ∀ w ∈ vsm.idf, 0 ≤ w) : ∀ x ∈ queryVec vsm text, 0 ≤ x := by
  intro x hx
  rw [queryVec, List.mem_map] at hx
  obtain ⟨p, hp, rfl⟩ := hx
  exact mul_nonneg (by positivity) (hidf p.2 (List.of_mem_zip hp).2)

theorem simScores_getD_mem_unit (vsm : Vsm) (r : Request)
    (hm : ∀ row ∈ vsm.matrix, ∀ x ∈ row, 0 ≤ x)
    (hidf : ∀ w ∈ vsm.idf, 0 ≤ w) (i : ℕ) :
    0 ≤ (simScores vsm r).getD i 0 ∧ (simScores vsm r).getD i 0 ≤ 1 := by
  by_cases hi : i < (simScores vsm r).length
  · rw [getD_of_lt _ _ _ hi]
    have hmem : (simScores vsm r).get ⟨i, hi⟩ ∈
        vsm.matrix.map (fun row => cosSim (queryVec vsm (userText r)) row) :=
      List.get_mem _ _ _
    obtain ⟨row, hrow, heq⟩ := List.mem_map.mp hmem
    rw [← heq]
    exact ⟨cosSim_nonneg (queryVec_nonneg vsm _ hidf) (hm row hrow),
      cosSim_le_one _ _⟩
  · rw [List.getD_eq_default _ _ (by omega)]
    exact ⟨le_refl 0, zero_le_one⟩

/-! ## Tokenization under concatenation and permutation -/

theorem isTokChar_space : isTokChar ' ' = false := by decide

theorem wordsAux_append_space (l₁ l₂ : List Char) : ∀ acc,
    wordsAux (l₁ ++ ' ' :: l₂) acc = wordsAux l₁ acc ++ wordsAux l₂ [] := by
  induction l₁ with
  | nil =>
    intro acc
    by_cases h : acc = []
    · simp [wordsAux, isTokChar_space, h]
    · simp [wordsAux, isTokChar_space, h]
  | cons c l₁ ih =>
    intro acc
    by_cases hc : isTokChar c
    · simp [wordsAux, hc, ih]
    · by_cases h : acc = []
      · simp [wordsAux, hc, h, ih]
      · simp [wordsAux, hc, h, ih]

theorem tokenize_append_space (a b : String) :
    tokenize (a ++ " " ++ b) = tokenize a ++ tokenize b := by
  unfold tokenize
  have hdata : (a ++ " " ++ b).data =
      a.data ++ ' ' :: b.data := by
    rw [String.data_append, String.data_append]
    simp [show (" " : String).data = [' '] from rfl]
  rw [hdata, List.map_append, List.map_cons]
  have hlow : Char.toLower ' ' = ' ' := rfl
  rw [hlow, wordsAux_append_space, List.map_append]

theorem tokenize_joinSpace (ms : List String) :
    tokenize (joinSpace ms) = (ms.map tokenize).flatten := by
  induction ms with
  | nil => simp [joinSpace, tokenize, wordsAux]
  | cons m ms ih =>
    cases ms with
    | nil => simp [joinSpace]
    | cons m₂ rest =>
      rw [joinSpace, tokenize_append_space, ih]
      simp

theorem count_tokenize_join_perm {ms ms' : List String}
    (h : List.Perm ms ms') (d t : String) :
    (tokenize (joinSpace (d :: ms))).count t =
      (tokenize (joinSpace (d :: ms'))).count t := by
  rw [tokenize_joinSpace, tokenize_joinSpace, List.count_flatten,
    List.count_flatten, List.map_map, List.map_map]
  exact ((h.cons d).map (List.count t ∘ tokenize)).sum_eq

theorem queryVec_join_perm (vsm : Vsm) (d : String) {ms ms' : List String}
    (h : List.Perm ms ms') :
    queryVec vsm (joinSpace (d :: ms)) =
      queryVec vsm (joinSpace (d :: ms')) := by
  unfold queryVec
  apply List.map_congr_left
  intro p _
  rw [count_tokenize_join_perm h d p.1]

/-! ## All-unknown queries: zero scores and the resulting order -/

theorem queryVec_zero_of_unknown (vsm : Vsm) (text : String)
    (h : ∀ t ∈ vsm.vocab, t ∉ tokenize text) :
    ∀ x ∈ queryVec vsm text, x = 0 := by
  intro x hx
  rw [queryVec, List.mem_map] at hx
  obtain ⟨p, hp, rfl⟩ := hx
  have hc : (tokenize text).count p.1 = 0 :=
    List.count_eq_zero.mpr (h p.1 (List.of_mem_zip hp).1)
  rw [hc]
  simp

theorem dot_self_eq_zero {q : List ℚ} (h : ∀ x ∈ q, x = 0) :
    dot q q = 0 := by
  induction q with
  | nil => simp [dot]
  | cons a q ih =>
    rw [dot_cons, h a (by simp), ih (fun x hx => h x (by simp [hx]))]
    ring

theorem cosSim_zero_left {q : List ℚ} (h : dot q q = 0) (r : List ℚ) :
    cosSim q r = 0 := by
  unfold cosSim
  rw [if_pos (Or.inl h)]

theorem simScores_zero_of_unknown (vsm : Vsm) (r : Request)
    (h : ∀ t ∈ vsm.vocab, t ∉ tokenize (userText r)) :
    simScores vsm r = vsm.matrix.map (fun _ => (0 : ℝ)) := by
  unfold simScores
  apply List.map_congr_left
  intro row _
  exact cosSim_zero_left
    (dot_self_eq_zero (queryVec_zero_of_unknown vsm _ h)) row

theorem keyLe_of_all_zero {s : List ℝ} (h : ∀ x ∈ s, x = 0) (i j : ℕ) :
    keyLe s i j ↔ i ≤ j := by
  have hz : ∀ k, s.getD k 0 = 0 := by
    intro k
    by_cases hk : k < s.length
    · rw [getD_of_lt _ _ _ hk]
      exact h _ (List.get_mem _ _ _)
    · rw [List.getD_eq_default _ _ (by omega)]
  unfold keyLe
  rw [hz i, hz j]
  simp

theorem argsort_of_all_zero {s : List ℝ} (h : ∀ x ∈ s, x = 0) :
    argsort s = List.range s.length := by
  unfold argsort
  have hsorted : List.Sorted (keyLe s) (List.range s.length) :=
    (List.sorted_le_range _).imp
      (fun {i j} hij => (keyLe_of_all_zero h i j).mpr hij)
  exact List.Sorted.insertionSort_eq hsorted

theorem topIndices_of_unknown (vsm : Vsm) (r : Request) (h1 : 0 < r.limit)
    (h : ∀ t ∈ vsm.vocab, t ∉ tokenize (userText r)) :
    topIndices vsm r =
      ((List.range vsm.matrix.length).drop
        (vsm.matrix.length - r.limit.toNat)).reverse := by
  have hz : ∀ x ∈ simScores vsm r, x = (0 : ℝ) := by
    intro x hx
    rw [simScores_zero_of_unknown vsm r h] at hx
    obtain ⟨_, _, rfl⟩ := List.mem_map.mp hx
    rfl
  have hslen : (simScores vsm r).length = vsm.matrix.length := by
    simp [simScores]
  rw [topIndices_eq vsm r h1, argsort_of_all_zero hz, List.length_range,
    hslen]


/-- C1: for every valid query (non-empty modules list, limit between 1
and 20), `rank` returns a sequence whose length equals
`min(limit, corpusSize)`; in particular, when `limit` exceeds the corpus
size it returns all corpus items ranked, without error. -/
theorem claim1_length_min (vsm : Vsm) (r : Request) (hm : r.modules ≠ [])
    (h1 : 0 < r.limit) (h2 : r.limit ≤ 20) :
    ∃ resp, handle vsm r = Except.ok resp ∧
      resp.recommendations.length = min r.limit.toNat vsm.matrix.length := by
  refine ⟨buildResponse vsm r, handle_ok vsm r hm ⟨h1, h2⟩, ?_⟩
  rw [recommendations_length, topIndices_length vsm r h1]

theorem claim1_length_min_witness :
    ∃ resp, handle vsm0 ⟨"d", ["m"], 20⟩ = Except.ok resp ∧
      resp.recommendations.length =
        min ((20 : ℤ)).toNat vsm0.matrix.length :=
  claim1_length_min vsm0 ⟨"d", ["m"], 20⟩ (by decide) (by decide) (by decide)

/-- C2: for every valid query, the returned sequence is sorted in
non-increasing similarity-score order and the rank field of the `i`-th
returned result equals `i`, counting contiguously from 1. -/
theorem claim2_sorted_contiguous (vsm : Vsm) (r : Request)
    (hm : r.modules ≠ []) (h1 : 0 < r.limit) (h2 : r.limit ≤ 20) :
    ∃ resp, handle vsm r = Except.ok resp ∧
      List.Sorted (fun a b : ℝ => b ≤ a)
        (resp.recommendations.map Recommendation.score) ∧
      ∀ k (hk : k < resp.recommendations.length),
        (resp.recommendations.get ⟨k, hk⟩).rank = k + 1 := by
  refine ⟨buildResponse vsm r, handle_ok vsm r hm ⟨h1, h2⟩, ?_, ?_⟩
  · rw [recommendations_map_score]
    rw [List.Sorted, List.pairwise_map]
    exact (topIndices_sorted vsm r h1).imp
      (fun hij => round4_mono (keyLe_le hij))
  · intro k hk
    rw [recommendations_get]
    rfl

theorem claim2_sorted_contiguous_witness :
    ∃ resp, handle vsm0 req0 = Except.ok resp ∧
      List.Sorted (fun a b : ℝ => b ≤ a)
        (resp.recommendations.map Recommendation.score) ∧
      ∀ k (hk : k < resp.recommendations.length),
        (resp.recommendations.get ⟨k, hk⟩).rank = k + 1 :=
  claim2_sorted_contiguous vsm0 req0 (by decide) (by decide) (by decide)

/-- C4: for every valid query (over a VSM with nonnegative TF-IDF weights,
as TF-IDF produces), every similarity score in the returned sequence lies
in `[0, 1]`; a zero query vector or zero corpus row yields score 0 via the
zero-branch of `cosSim`, never a division by zero. -/
theorem claim4_scores_unit_interval (vsm : Vsm) (r : Request)
    (hm : r.modules ≠ []) (h1 : 0 < r.limit) (h2 : r.limit ≤ 20)
    (hmat : ∀ row ∈ vsm.matrix, ∀ x ∈ row, 0 ≤ x)
    (hidf : ∀ w ∈ vsm.idf, 0 ≤ w) :
    ∃ resp, handle vsm r = Except.ok resp ∧
      ∀ rec ∈ resp.recommendations, 0 ≤ rec.score ∧ rec.score ≤ 1 := by
  refine ⟨buildResponse vsm r, handle_ok vsm r hm ⟨h1, h2⟩, ?_⟩
  intro rec hrec
  rw [recommendations_def] at hrec
  obtain ⟨p, _, rfl⟩ := List.mem_map.mp hrec
  have hb := simScores_getD_mem_unit vsm r hmat hidf p.2
  exact round4_mem_unit hb.1 hb.2

theorem claim4_scores_unit_interval_witness :
    ∃ resp, handle vsm0 req0 = Except.ok resp ∧
      ∀ rec ∈ resp.recommendations, 0 ≤ rec.score ∧ rec.score ≤ 1 :=
  claim4_scores_unit_interval vsm0 req0 (by decide) (by decide) (by decide)
    (by decide) (by decide)

/-- C5: a query whose modules list is empty is rejected with an
`InvalidQuery` error (the HTTP 400 at `src/main.py` lines 79–80, reached
whenever the limit bounds pass) and no ranked results are produced; with
an out-of-range limit the request is still rejected, by validation. -/
theorem claim5_empty_modules_rejected (vsm : Vsm) (d : String) (lim : ℤ) :
    (∃ e, handle vsm ⟨d, [], lim⟩ = Except.error e) ∧
      (0 < lim → lim ≤ 20 →
        handle vsm ⟨d, [], lim⟩ =
          Except.error InvalidQuery.emptyModules) := by
  constructor
  · by_cases hv : validRange ⟨d, [], lim⟩
    · exact ⟨InvalidQuery.emptyModules, by simp [handle, hv, recommendBooks]⟩
    · exact ⟨InvalidQuery.limitOutOfRange, by simp [handle, hv]⟩
  · intro h1 h2
    have hv : validRange ⟨d, [], lim⟩ := ⟨h1, h2⟩
    simp [handle, hv, recommendBooks]

theorem claim5_empty_modules_rejected_witness :
    handle vsm0 ⟨"d", [], 5⟩ = Except.error InvalidQuery.emptyModules :=
  (claim5_empty_modules_rejected vsm0 "d" 5).2 (by decide) (by decide)

/-- C6: a limit outside `1..=20` is rejected with an `InvalidQuery`
error (pydantic's `gt=0, le=20` bounds) before `recommend_books` runs;
every limit inside `1..=20` passes this check and the request proceeds
to `recommend_books`. -/
theorem claim6_limit_validation (vsm : Vsm) (r : Request) :
    (r.limit ≤ 0 ∨ 20 < r.limit →
      handle vsm r = Except.error InvalidQuery.limitOutOfRange) ∧
      (0 < r.limit → r.limit ≤ 20 →
        handle vsm r = recommendBooks vsm r) := by
  constructor
  · intro h
    have hv : ¬ validRange r := by
      unfold validRange
      omega
    simp [handle, hv]
  · intro h1 h2
    simp [handle, show validRange r from ⟨h1, h2⟩]

theorem claim6_limit_validation_witness :
    handle vsm0 ⟨"d", ["m"], 25⟩ =
        Except.error InvalidQuery.limitOutOfRange ∧
      handle vsm0 ⟨"d", ["m"], 20⟩ = recommendBooks vsm0 ⟨"d", ["m"], 20⟩ :=
  ⟨(claim6_limit_validation vsm0 ⟨"d", ["m"], 25⟩).1 (by decide),
    (claim6_limit_validation vsm0 ⟨"d", ["m"], 20⟩).2 (by decide) (by decide)⟩

/-- C7: the score of each returned result equals the full-precision
cosine similarity rounded to 4 decimal places, while the selection and
ordering of the top-limit items (`topIndices`) is computed from the
unrounded `simScores`; rounding is applied only when the output record is
built. -/
theorem claim7_round_at_boundary (vsm : Vsm) (r : Request)
    (hm : r.modules ≠ []) (h1 : 0 < r.limit) (h2 : r.limit ≤ 20) :
    ∃ resp, handle vsm r = Except.ok resp ∧
      resp.recommendations.map Recommendation.score =
        (topIndices vsm r).map
          (fun idx => round4 ((simScores vsm r).getD idx 0)) ∧
      topIndices vsm r =
        (pySliceFrom (-r.limit) (argsort (simScores vsm r))).reverse :=
  ⟨buildResponse vsm r, handle_ok vsm r hm ⟨h1, h2⟩,
    recommendations_map_score vsm r, rfl⟩

theorem claim7_round_at_boundary_witness :
    ∃ resp, handle vsm0 req0 = Except.ok resp ∧
      resp.recommendations.map Recommendation.score =
        (topIndices vsm0 req0).map
          (fun idx => round4 ((simScores vsm0 req0).getD idx 0)) ∧
      topIndices vsm0 req0 =
        (pySliceFrom (-req0.limit) (argsort (simScores vsm0 req0))).reverse :=
  claim7_round_at_boundary vsm0 req0 (by decide) (by decide) (by decide)

/-- C8: ranking is deterministic — for a fixed VSM, two invocations on
identical inputs produce identical outputs.  The embedding is a pure
function of the VSM and the request, mirroring the source, which reads
only the module-level model state and derives everything else from the
request body. -/
theorem claim8_deterministic (vsm : Vsm) (r₁ r₂ : Request) (h : r₁ = r₂) :
    handle vsm r₁ = handle vsm r₂ := by
  rw [h]

theorem claim8_deterministic_witness :
    handle vsm0 req0 = handle vsm0 req0 :=
  claim8_deterministic vsm0 req0 req0 rfl

/-- C10: for every valid query, permuting the modules list (domain fixed)
leaves every similarity score unchanged: the query vector is built from
term counts of the space-joined text, and those counts are invariant
under reordering the joined parts. -/
theorem claim10_module_order_invariant (vsm : Vsm) (d : String)
    {ms ms' : List String} (lim : ℤ) (hperm : List.Perm ms ms')
    (hm : ms ≠ []) (h1 : 0 < lim) (h2 : lim ≤ 20) :
    simScores vsm ⟨d, ms, lim⟩ = simScores vsm ⟨d, ms', lim⟩ := by
  unfold simScores
  rw [show userText ⟨d, ms, lim⟩ = joinSpace (d :: ms) from rfl,
    show userText ⟨d, ms', lim⟩ = joinSpace (d :: ms') from rfl,
    queryVec_join_perm vsm d hperm]

theorem claim10_module_order_invariant_witness :
    simScores vsm0 ⟨"computer science", ["machine learning", "python"], 2⟩ =
      simScores vsm0 ⟨"computer science", ["python", "machine learning"], 2⟩ :=
  claim10_module_order_invariant vsm0 "computer science" 2
    (List.Perm.swap "python" "machine learning" []) (by decide) (by decide)
    (by decide)

/-- C3 counterexample: on a two-item corpus where every query term is
unknown, both similarity scores tie at 0, yet the response lists the
SECOND corpus item first — `argsort()[-limit:][::-1]` reverses the
ascending order, so tied items come out in reverse corpus order, not
original corpus order.  (A two-element array is far below numpy's
16-element introsort threshold, so numpy sorts it with its stable
insertion-sort fallback and the model is exact here.) -/
theorem claim3_counterexample :
    (∀ x ∈ simScores vsm0 req0, x = (0 : ℝ)) ∧
      (handle vsm0 req0).map
          (fun resp => resp.recommendations.map Recommendation.title) =
        Except.ok ["Book B", "Book A"] ∧
      (["Book B", "Book A"] : List String) ≠ ["Book A", "Book B"] := by
  have hunk : ∀ t ∈ vsm0.vocab, t ∉ tokenize (userText req0) := by
    intro t ht
    simp [vsm0] at ht
  refine ⟨?_, ?_, by decide⟩
  · intro x hx
    rw [simScores_zero_of_unknown vsm0 req0 hunk] at hx
    obtain ⟨_, _, rfl⟩ := List.mem_map.mp hx
    rfl
  · have htop : topIndices vsm0 req0 = [1, 0] := by
      rw [topIndices_of_unknown vsm0 req0 (by decide) hunk]
      rfl
    have hresp : (buildResponse vsm0 req0).recommendations.map
        Recommendation.title = ["Book B", "Book A"] := by
      rw [recommendations_def, htop]
      rfl
    rw [handle_ok vsm0 req0 (by decide) (by decide)]
    simp only [Except.map]
    rw [hresp]

/-- C3 (amended): on a corpus of fewer than 16 items — where numpy's
argsort runs its stable insertion-sort fallback, so the stable model is
exact — when two returned items have equal similarity scores, the one
occurring LATER in the original corpus order is ranked first (the
ascending argsort is reversed by `[::-1]`); in particular, a query
containing only terms absent from the vocabulary yields all scores 0.0
with the results listed in REVERSE corpus order (clamped to the limit).
On larger corpora the source's default introsort is unstable and leaves
the tie order unspecified, so no tie-order guarantee is claimed there. -/
theorem claim3_amended_ties_reverse (vsm : Vsm) (r : Request)
    (hsmall : vsm.matrix.length < 16)
    (hm : r.modules ≠ []) (h1 : 0 < r.limit) (h2 : r.limit ≤ 20) :
    (∀ k k' : Fin (topIndices vsm r).length, k < k' →
        (simScores vsm r).getD ((topIndices vsm r).get k) 0 =
          (simScores vsm r).getD ((topIndices vsm r).get k') 0 →
        (topIndices vsm r).get k' < (topIndices vsm r).get k) ∧
      ((∀ t ∈ vsm.vocab, t ∉ tokenize (userText r)) →
        (∀ x ∈ simScores vsm r, x = (0 : ℝ)) ∧
          topIndices vsm r =
            ((List.range vsm.matrix.length).drop
              (vsm.matrix.length - r.limit.toNat)).reverse) := by
  constructor
  · intro k k' hkk' heq
    have hpair : keyLe (simScores vsm r) ((topIndices vsm r).get k')
        ((topIndices vsm r).get k) :=
      List.Sorted.rel_get_of_lt (topIndices_sorted vsm r h1) hkk'
    rcases hpair with hlt | ⟨_, hle⟩
    · rw [heq] at hlt
      exact absurd hlt (lt_irrefl _)
    · refine lt_of_le_of_ne hle (fun hcontra => ?_)
      have hkk : k' = k :=
        ((topIndices_nodup vsm r h1).get_inj_iff).mp hcontra
      rw [hkk] at hkk'
      exact lt_irrefl _ hkk'
  · intro hunk
    refine ⟨fun x hx => ?_, topIndices_of_unknown vsm r h1 hunk⟩
    rw [simScores_zero_of_unknown vsm r hunk] at hx
    obtain ⟨_, _, rfl⟩ := List.mem_map.mp hx
    rfl

theorem claim3_amended_ties_reverse_witness :
    (∀ k k' : Fin (topIndices vsm0 req0).length, k < k' →
        (simScores vsm0 req0).getD ((topIndices vsm0 req0).get k) 0 =
          (simScores vsm0 req0).getD ((topIndices vsm0 req0).get k') 0 →
        (topIndices vsm0 req0).get k' < (topIndices vsm0 req0).get k) ∧
      ((∀ t ∈ vsm0.vocab, t ∉ tokenize (userText req0)) →
        (∀ x ∈ simScores vsm0 req0, x = (0 : ℝ)) ∧
          topIndices vsm0 req0 =
            ((List.range vsm0.matrix.length).drop
              (vsm0.matrix.length - req0.limit.toNat)).reverse) :=
  claim3_amended_ties_reverse vsm0 req0 (by decide) (by decide) (by decide)
    (by decide)

/-- C9 counterexample: the serialized result object produced by the
`Recommendation` pydantic model has no item-identifier key of any
spelling — the claim that every returned result carries an `itemId` is
false for every result the code ever produces. -/
theorem claim9_counterexample :
    ("itemId" ∉ recommendationKeys) ∧ ("item_id" ∉ recommendationKeys) ∧
      ("id" ∉ recommendationKeys) := by
  decide

/-- C9 (amended): each returned result carries rank, title, optional
price, optional review score, optional review summary, and score, all
drawn from the matched corpus item (`mkResult`) — but NO item identifier
(the output keys are exactly rank/title/price/review_score/
review_summary/score). -/
theorem claim9_amended_fields (vsm : Vsm) (r : Request)
    (hm : r.modules ≠ []) (h1 : 0 < r.limit) (h2 : r.limit ≤ 20) :
    "itemId" ∉ recommendationKeys ∧
      ∃ resp, handle vsm r = Except.ok resp ∧
        ∀ k (hk : k < resp.recommendations.length),
          resp.recommendations.get ⟨k, hk⟩ =
            mkResult vsm r k ((topIndices vsm r).getD k 0) := by
  refine ⟨by decide, buildResponse vsm r, handle_ok vsm r hm ⟨h1, h2⟩, ?_⟩
  intro k hk
  exact recommendations_get vsm r k hk

theorem claim9_amended_fields_witness :
    "itemId" ∉ recommendationKeys ∧
      ∃ resp, handle vsm0 req0 = Except.ok resp ∧
        ∀ k (hk : k < resp.recommendations.length),
          resp.recommendations.get ⟨k, hk⟩ =
            mkResult vsm0 req0 k ((topIndices vsm0 req0).getD k 0) :=
  claim9_amended_fields vsm0 req0 (by decide) (by decide) (by decide)

end BookRec
